import Mathlib

/-!
# Verification of the offboard-position flight sequencer

Shallow embedding of `src/example/offboard_position/offboard_position.cpp`
(charles-blouin/DronecodeSDK).  The program drives a vehicle through:
connect → heartbeat wait → health query → arm → offboard (priming setpoint,
start, waypoints, descent ramp) → land → wait-until-grounded → disarm.

Float arithmetic of the source is modelled over `ℚ` (the literals 0.75, 0.2,
0.15 and the ramp formula are taken verbatim from the source; rounding of
`float` is not modelled).  Gateway calls and console output are modelled as
explicit event traces; the blocking `sleep_for` calls have no observable
effect in this model and are omitted.  The two unbounded polling loops
(heartbeat wait and in-air wait) consume an oracle list of poll answers;
exhausting the oracle while the loop guard still holds is modelled as `none`
(the run does not terminate within the oracle).
-/

namespace OffboardPosition

/-! ## Data model and embedded operations -/

/-- Modelled from the spec: the result codes of the external gateways
(`Action::Result`, `Offboard::Result`, `ConnectionResult` of the SDK are not
part of this repository's sources; §6 of the spec describes them as "a closed
set including a distinguished Success value and one or more failure kinds,
each convertible to a descriptive string"). -/
inductive GResult where
  | success
  | failure (kind : String)
deriving DecidableEq, Repr

/-- Modelled from the spec: each result is convertible to a descriptive
string (`Action::result_str` / `Offboard::result_str` /
`connection_result_str` in the SDK). -/
def result_str : GResult → String
  | .success => "Success"
  | .failure kind => kind

/-- One call issued to the connection layer or to one of the three gateways,
in program order. -/
inductive GatewayCall where
  | addConnection (url : String)
  | isConnected
  | healthQuery
  | arm
  | setVelocityNed (north east down yaw : ℚ)
  | offboardStart
  | setPositionNed (north east down yaw : ℚ)
  | land
  | inAirPoll
  | disarm
deriving DecidableEq, Repr

/-- One console line: `out` is standard output, `err` is standard error. -/
inductive OutEvent where
  | out (line : String)
  | err (line : String)
deriving DecidableEq, Repr

/-- The colour code `ERROR_CONSOLE_TEXT` ("\033[31m"). -/
def errorConsoleText : String := "\x1b[31m"

/-- The colour code `NORMAL_CONSOLE_TEXT` ("\033[0m"). -/
def normalConsoleText : String := "\x1b[0m"

/-- The standard-error line emitted by `action_error_exit` /
`offboard_error_exit` on a non-Success result: colour prefix, the message,
the human-readable result string, colour reset. -/
def errEvent (message : String) (r : GResult) : OutEvent :=
  .err (errorConsoleText ++ message ++ result_str r ++ normalConsoleText)

/-- Model of `offboard_log(offb_mode, msg)`: one standard-output line. -/
def offboard_log (offb_mode msg : String) : OutEvent :=
  .out ("[" ++ offb_mode ++ "] " ++ msg)

/-- The constant `height = 0.75f` of `offb_ctrl_ned`. -/
def height : ℚ := 75 / 100

/-- The constant `const unsigned steps = 5` of `offb_ctrl_ned`. -/
def steps : ℕ := 5

/-- Down-component commanded at ramp iteration `i`:
`-height + height/(float)steps*(float)i + 0.15f`. -/
def descent_down (height : ℚ) (steps : ℕ) (i : ℕ) : ℚ :=
  -height + height / (steps : ℚ) * (i : ℚ) + 15 / 100

/-- Value logged at ramp iteration `i`:
`std::to_string(-height + height/(float)steps*(float)i)` (no offset). -/
def descent_log_val (height : ℚ) (steps : ℕ) (i : ℕ) : ℚ :=
  -height + height / (steps : ℚ) * (i : ℚ)

/-- The down-components of the descent ramp, in emission order. -/
def descentDowns : List ℚ :=
  (List.range steps).map (descent_down height steps)

/-- The setpoint calls emitted by the ramp loop, in order. -/
def rampCalls : List GatewayCall :=
  (List.range steps).map (fun i => .setPositionNed 0 0 (descent_down height steps i) 0)

/-- The log lines emitted by the ramp loop, in order. -/
def rampOut : List OutEvent :=
  (List.range steps).map (fun i => offboard_log "NED" (toString (descent_log_val height steps i)))

/-- Model of `offb_ctrl_ned(offboard)`.  Its only input from the environment is the
result of `offboard->start()`.  `.error (calls, output)` models the process
exit performed by `offboard_error_exit` (the calls issued and lines printed
up to the exit); `.ok (ret, calls, output)` models a normal return with
value `ret`. -/
def offb_ctrl_ned (start_result : GResult) :
    Except (List GatewayCall × List OutEvent) (Bool × List GatewayCall × List OutEvent) :=
  let offb_mode := "NED"
  let primeCalls : List GatewayCall := [.setVelocityNed 0 0 0 0]
  let startCalls := primeCalls ++ [.offboardStart]
  if start_result ≠ .success then
    .error (startCalls, [errEvent "Offboard start failed" start_result])
  else
    let wayCalls : List GatewayCall :=
      [.setPositionNed 0 0 0 0,
       .setPositionNed 0 0 (-height) 0,
       .setPositionNed (2/10) 0 (-height) 0,
       .setPositionNed 0 0 (-height) 0]
    let wayOut : List OutEvent :=
      [offboard_log offb_mode "Offboard started",
       offboard_log offb_mode "Going to 0, 0, -0.0",
       offboard_log offb_mode "Going to 0, 0, -0.75",
       offboard_log offb_mode "Going to 0.2, 0, -0.75",
       offboard_log offb_mode "Going to 0, 0, -0.75"]
    let finalCalls : List GatewayCall := [.setPositionNed 0 0 0 0]
    let finalOut : List OutEvent := [offboard_log offb_mode "Going to 0, 0, 0"]
    .ok (true,
         startCalls ++ wayCalls ++ rampCalls ++ finalCalls,
         wayOut ++ rampOut ++ finalOut)

/-- The environment of one run: the command line and the answers the
external collaborators give to each call, in the order the program makes
them.  `heartbeat` and `in_air` are the successive answers of
`dc.is_connected()` and `telemetry->in_air()`. -/
structure Env where
  progName : String
  args : List String
  connection_result : GResult
  heartbeat : List Bool
  gyro_ok : Bool
  arm_result : GResult
  start_result : GResult
  land_result : GResult
  in_air : List Bool
  disarm_result : GResult

/-- Observable outcome of a terminating run. -/
structure RunOutcome where
  exitCode : ℕ
  calls : List GatewayCall
  output : List OutEvent
deriving DecidableEq, Repr

/-- Number of polls a `while (poll() != stop) …` loop performs, given the
oracle list of successive poll answers; `none` when the oracle is exhausted
with the guard still holding (the loop has not terminated yet). -/
def pollsUntil (stop : Bool) : List Bool → Option ℕ
  | [] => none
  | b :: rest =>
    if b = stop then some 1
    else (pollsUntil stop rest).map (· + 1)

/-- The `usage(bin_name)` output. -/
def usageOutput (bin_name : String) : List OutEvent :=
  [.out (normalConsoleText ++ "Usage : " ++ bin_name ++ " <connection_url>"),
   .out "Connection URL format should be :",
   .out " For TCP : tcp://[server_host][:server_port]",
   .out " For UDP : udp://[bind_host][:bind_port]",
   .out " For Serial : serial:///path/to/serial/dev[:baudrate]",
   .out "For example, to connect to the simulator use URL: udp://:14540"]

/-- Model of `main(argc, argv)`: `env.args` are the arguments after the program name
(so `argc == 2` iff `env.args` is a single URL).  Returns the exit code, the
trace of connection/gateway calls, and the console output; `none` when one
of the two polling loops exhausts its oracle. -/
def mainRun (env : Env) : Option RunOutcome :=
  match env.args with
  | [url] =>
    let callsConn : List GatewayCall := [.addConnection url]
    if env.connection_result ≠ .success then
      some ⟨1, callsConn,
        [.out (errorConsoleText ++ "Connection failed: "
               ++ result_str env.connection_result ++ normalConsoleText)]⟩
    else
      match pollsUntil true env.heartbeat with
      | none => none
      | some k =>
        let callsHb := callsConn ++ List.replicate k .isConnected
        let outHb : List OutEvent :=
          List.replicate (k - 1) (.out "Wait for system to connect via heartbeat")
        let callsHealth := callsHb ++ [.healthQuery]
        let outGyro := outHb ++
          (if env.gyro_ok then [OutEvent.out "Gyro is calibrated"] else [])
        let callsArm := callsHealth ++ [.arm]
        if env.arm_result ≠ .success then
          some ⟨1, callsArm, outGyro ++ [errEvent "Arming failed" env.arm_result]⟩
        else
          let outArm := outGyro ++ [OutEvent.out "Armed"]
          match offb_ctrl_ned env.start_result with
          | .error (offCalls, offOut) =>
            some ⟨1, callsArm ++ offCalls, outArm ++ offOut⟩
          | .ok (ret, offCalls, offOut) =>
            let callsOff := callsArm ++ offCalls
            let outOff := outArm ++ offOut
            if ret = false then
              some ⟨1, callsOff, outOff⟩
            else
              let callsLand := callsOff ++ [.land]
              if env.land_result ≠ .success then
                some ⟨1, callsLand, outOff ++ [errEvent "Landing failed" env.land_result]⟩
              else
                match pollsUntil false env.in_air with
                | none => none
                | some m =>
                  let callsAir := callsLand ++ List.replicate m .inAirPoll
                  let outAir := outOff ++
                    List.replicate (m - 1) (OutEvent.out "Vehicle is landing...")
                  some ⟨0, callsAir ++ [.disarm],
                        outAir ++ [.out "Landed!", .out "Finished..."]⟩
  | _ => some ⟨1, [], usageOutput env.progName⟩

/-- True exactly for the two setpoint-delivery calls of the
External-Control Gateway (`set_velocity_ned` / `set_position_ned`). -/
def isSetpointSend : GatewayCall → Bool
  | .setVelocityNed _ _ _ _ => true
  | .setPositionNed _ _ _ _ => true
  | _ => false

/-- Phase index of each call in the program order of `main`:
connection (0), health query (1), arm (2), priming setpoint (3),
offboard start (4), waypoint/ramp setpoints (5), land (6), in-air
polling (7), disarm (8). -/
def phase : GatewayCall → ℕ
  | .addConnection _ => 0
  | .isConnected => 0
  | .healthQuery => 1
  | .arm => 2
  | .setVelocityNed _ _ _ _ => 3
  | .offboardStart => 4
  | .setPositionNed _ _ _ _ => 5
  | .land => 6
  | .inAirPoll => 7
  | .disarm => 8

/-- Every call of the list belongs to phase `n` or earlier. -/
def PhaseLE (n : ℕ) (calls : List GatewayCall) : Prop :=
  ∀ c ∈ calls, phase c ≤ n

/-- The "Connection failed" standard-output line of `main`. -/
def connFailLine (r : GResult) : OutEvent :=
  .out (errorConsoleText ++ "Connection failed: " ++ result_str r ++ normalConsoleText)

/-- Outcome of the usage-error branch (`argc != 2`). -/
def usageOutcome (bin_name : String) : RunOutcome := ⟨1, [], usageOutput bin_name⟩

/-- Outcome when `add_any_connection` fails. -/
def connFailOutcome (url : String) (r : GResult) : RunOutcome :=
  ⟨1, [.addConnection url], [connFailLine r]⟩

/-- Calls issued up to and including `arm()`, with `k` heartbeat polls. -/
def preCalls (url : String) (k : ℕ) : List GatewayCall :=
  .addConnection url :: (List.replicate k .isConnected ++ [.healthQuery, .arm])

/-- Output lines printed before the arm result is checked. -/
def preOut (k : ℕ) (g : Bool) : List OutEvent :=
  List.replicate (k - 1) (.out "Wait for system to connect via heartbeat")
  ++ (if g then [OutEvent.out "Gyro is calibrated"] else [])

/-- Outcome when `arm()` fails. -/
def armFailOutcome (url : String) (k : ℕ) (g : Bool) (r : GResult) : RunOutcome :=
  ⟨1, preCalls url k, preOut k g ++ [errEvent "Arming failed" r]⟩

/-- Outcome when `offboard->start()` fails. -/
def startFailOutcome (url : String) (k : ℕ) (g : Bool) (r : GResult) : RunOutcome :=
  ⟨1, preCalls url k ++ [.setVelocityNed 0 0 0 0, .offboardStart],
   preOut k g ++ [.out "Armed", errEvent "Offboard start failed" r]⟩

/-- Gateway calls of `offb_ctrl_ned` after `start()` succeeds: the four
scripted waypoints, the descent ramp, and the separate final setpoint. -/
def offTailCalls : List GatewayCall :=
  [.setPositionNed 0 0 0 0,
   .setPositionNed 0 0 (-height) 0,
   .setPositionNed (2/10) 0 (-height) 0,
   .setPositionNed 0 0 (-height) 0]
  ++ (rampCalls ++ [.setPositionNed 0 0 0 0])

/-- Output of `offb_ctrl_ned` after `start()` succeeds. -/
def offOutOk : List OutEvent :=
  [offboard_log "NED" "Offboard started",
   offboard_log "NED" "Going to 0, 0, -0.0",
   offboard_log "NED" "Going to 0, 0, -0.75",
   offboard_log "NED" "Going to 0.2, 0, -0.75",
   offboard_log "NED" "Going to 0, 0, -0.75"]
  ++ (rampOut ++ [offboard_log "NED" "Going to 0, 0, 0"])

/-- Outcome when `land()` fails. -/
def landFailOutcome (url : String) (k : ℕ) (g : Bool) (r : GResult) : RunOutcome :=
  ⟨1, preCalls url k
      ++ (.setVelocityNed 0 0 0 0 :: .offboardStart :: (offTailCalls ++ [.land])),
   preOut k g ++ (.out "Armed" :: (offOutOk ++ [errEvent "Landing failed" r]))⟩

/-- Outcome of a fully successful run with `k` heartbeat polls and `m`
in-air polls. -/
def successOutcome (url : String) (k : ℕ) (g : Bool) (m : ℕ) : RunOutcome :=
  ⟨0, preCalls url k
      ++ (.setVelocityNed 0 0 0 0 :: .offboardStart ::
          (offTailCalls ++ (.land :: (List.replicate m .inAirPoll ++ [.disarm])))),
   preOut k g ++ (.out "Armed" ::
      (offOutOk ++ (List.replicate (m - 1) (.out "Vehicle is landing...")
        ++ [.out "Landed!", .out "Finished..."])))⟩

/-- A static environment for concrete witness runs: one URL argument, every
result Success, one heartbeat poll, one in-air poll. -/
def okEnv : Env :=
  ⟨"offboard", ["udp://:14540"], .success, [true], true,
   .success, .success, .success, [false], .success⟩

/-- The outcome of `okEnv`. -/
def okOut : RunOutcome := successOutcome "udp://:14540" 1 true 1

def c8Env : Env :=
  ⟨"offboard", [], .success, [true], true, .success, .success, .success, [false], .success⟩

def armFailEnv : Env :=
  ⟨"offboard", ["udp://:14540"], .success, [true], true,
   .failure "Command denied", .success, .success, [false], .success⟩

def armFailOut : RunOutcome :=
  armFailOutcome "udp://:14540" 1 true (.failure "Command denied")

/-- The run with a failing `disarm()` (all earlier phases succeed). -/
def disarmFailEnv : Env :=
  ⟨"offboard", ["udp://:14540"], .success, [true], true,
   .success, .success, .success, [false], .failure "Command denied"⟩

/-- The environment of the Wait-Grounded scenario: every command succeeds
and `in_air()` answers true exactly `N` times, then false. -/
def waitGroundedEnv (N : ℕ) : Env :=
  ⟨"offboard", ["udp://:14540"], .success, [true], true,
   .success, .success, .success, List.replicate N true ++ [false], .success⟩

/-- The fail-fast property of one run: a non-Success arm / offboard-start /
land result that was actually returned (the call appears in the trace)
forces exit code 1, the corresponding error line, and no call of any later
phase. -/
def FailFast (env : Env) (o : RunOutcome) : Prop :=
  (env.arm_result ≠ .success → .arm ∈ o.calls →
     o.exitCode = 1 ∧ errEvent "Arming failed" env.arm_result ∈ o.output
     ∧ PhaseLE 2 o.calls)
  ∧ (env.start_result ≠ .success → .offboardStart ∈ o.calls →
     o.exitCode = 1 ∧ errEvent "Offboard start failed" env.start_result ∈ o.output
     ∧ PhaseLE 4 o.calls)
  ∧ (env.land_result ≠ .success → .land ∈ o.calls →
     o.exitCode = 1 ∧ errEvent "Landing failed" env.land_result ∈ o.output
     ∧ PhaseLE 6 o.calls)

/-- The watchdog-arming precondition on a trace: every `start()` call has
some setpoint send strictly before it. -/
def StartPrimed (o : RunOutcome) : Prop :=
  ∀ j : ℕ, o.calls[j]? = some .offboardStart →
    ∃ i : ℕ, i < j ∧ ∃ c, o.calls[i]? = some c ∧ isSetpointSend c = true

/-- C6 amended property: the outcome never depends on the disarm result,
and any run that reaches `disarm()` exits with code 0. -/
def DisarmIgnored (env : Env) : Prop :=
  (∀ r₁ r₂ : GResult,
    mainRun { env with disarm_result := r₁ } = mainRun { env with disarm_result := r₂ })
  ∧ ∀ o : RunOutcome, mainRun env = some o → .disarm ∈ o.calls → o.exitCode = 0

/-! ## Helper lemmas -/

/-- The five descent down-components, computed exactly. -/
lemma descentDowns_eq :
    descentDowns = [-6/10, -45/100, -3/10, -15/100, 0] := by
  simp [descentDowns, steps, List.range_succ, descent_down, height]
  norm_num

/-- Exhaustive case analysis of `mainRun`. -/
lemma mainRun_shapes (env : Env) (o : RunOutcome) (h : mainRun env = some o) :
    ((∀ url, env.args ≠ [url]) ∧ o = usageOutcome env.progName)
  ∨ (∃ url, env.args = [url] ∧ env.connection_result ≠ .success
       ∧ o = connFailOutcome url env.connection_result)
  ∨ (∃ url k, env.args = [url] ∧ env.connection_result = .success
       ∧ pollsUntil true env.heartbeat = some k
       ∧ env.arm_result ≠ .success
       ∧ o = armFailOutcome url k env.gyro_ok env.arm_result)
  ∨ (∃ url k, env.args = [url] ∧ env.connection_result = .success
       ∧ pollsUntil true env.heartbeat = some k
       ∧ env.arm_result = .success ∧ env.start_result ≠ .success
       ∧ o = startFailOutcome url k env.gyro_ok env.start_result)
  ∨ (∃ url k, env.args = [url] ∧ env.connection_result = .success
       ∧ pollsUntil true env.heartbeat = some k
       ∧ env.arm_result = .success ∧ env.start_result = .success
       ∧ env.land_result ≠ .success
       ∧ o = landFailOutcome url k env.gyro_ok env.land_result)
  ∨ (∃ url k m, env.args = [url] ∧ env.connection_result = .success
       ∧ pollsUntil true env.heartbeat = some k
       ∧ env.arm_result = .success ∧ env.start_result = .success
       ∧ env.land_result = .success
       ∧ pollsUntil false env.in_air = some m
       ∧ o = successOutcome url k env.gyro_ok m) := by
  obtain ⟨pn, args, cr, hb, g, ar, sr, lr, ia, dr⟩ := env
  rcases args with _ | ⟨url, _ | ⟨a2, rest2⟩⟩
  · exact Or.inl ⟨by simp, by simp [mainRun, usageOutcome] at h ⊢; exact h.symm⟩
  · by_cases hcr : cr = GResult.success
    case neg =>
      refine Or.inr (Or.inl ⟨url, rfl, hcr, ?_⟩)
      simp [mainRun, hcr, connFailOutcome, connFailLine] at h ⊢
      exact h.symm
    case pos =>
      subst hcr
      rcases hhb : pollsUntil true hb with _ | k
      · simp [mainRun, hhb] at h
      by_cases har : ar = GResult.success
      case neg =>
        refine Or.inr (Or.inr (Or.inl ⟨url, k, rfl, rfl, rfl, har, ?_⟩))
        simp [mainRun, hhb, har, armFailOutcome, preCalls, preOut] at h ⊢
        rw [← h]
      case pos =>
        subst har
        by_cases hsr : sr = GResult.success
        case neg =>
          refine Or.inr (Or.inr (Or.inr (Or.inl ⟨url, k, rfl, rfl, rfl, rfl, hsr, ?_⟩)))
          simp [mainRun, hhb, hsr, offb_ctrl_ned, startFailOutcome, preCalls, preOut] at h ⊢
          rw [← h]
        case pos =>
          subst hsr
          by_cases hlr : lr = GResult.success
          case neg =>
            refine Or.inr (Or.inr (Or.inr (Or.inr (Or.inl
              ⟨url, k, rfl, rfl, rfl, rfl, rfl, hlr, ?_⟩))))
            simp [mainRun, hhb, hlr, offb_ctrl_ned, landFailOutcome, preCalls, preOut,
              offTailCalls, offOutOk] at h ⊢
            rw [← h]
          case pos =>
            subst hlr
            rcases hia : pollsUntil false ia with _ | m
            · simp [mainRun, hhb, hia, offb_ctrl_ned] at h
            refine Or.inr (Or.inr (Or.inr (Or.inr (Or.inr
              ⟨url, k, m, rfl, rfl, rfl, rfl, rfl, rfl, rfl, ?_⟩))))
            simp [mainRun, hhb, hia, offb_ctrl_ned, successOutcome, preCalls, preOut,
              offTailCalls, offOutOk] at h ⊢
            rw [← h]
  · exact Or.inl ⟨by simp, by simp [mainRun, usageOutcome] at h ⊢; exact h.symm⟩

/-- No call of `preCalls` is a later-phase call. -/
lemma phaseLE_preCalls (url : String) (k n : ℕ) (hn : 2 ≤ n) : PhaseLE n (preCalls url k) := by
  intro c hc
  simp [preCalls, List.mem_replicate] at hc
  rcases hc with rfl | ⟨_, rfl⟩ | rfl | rfl <;> simp [phase] <;> omega

/-- Every call of `offTailCalls` is a waypoint/ramp setpoint (phase 5). -/
lemma phase_offTail {c : GatewayCall} (hc : c ∈ offTailCalls) : phase c = 5 := by
  simp [offTailCalls, rampCalls] at hc
  rcases hc with rfl | rfl | rfl | rfl | ⟨i, _, rfl⟩ | rfl <;> simp [phase]

lemma start_not_mem_preCalls (url : String) (k : ℕ) :
    GatewayCall.offboardStart ∉ preCalls url k := by
  simp [preCalls, List.mem_replicate]

lemma start_not_mem_offTail : GatewayCall.offboardStart ∉ offTailCalls := by
  simp [offTailCalls, rampCalls]

lemma disarm_not_mem_preCalls (url : String) (k : ℕ) :
    GatewayCall.disarm ∉ preCalls url k := by
  simp [preCalls, List.mem_replicate]

lemma disarm_not_mem_offTail : GatewayCall.disarm ∉ offTailCalls := by
  simp [offTailCalls, rampCalls]

lemma mainRun_okEnv : mainRun okEnv = some okOut := by
  simp [mainRun, okEnv, okOut, pollsUntil, offb_ctrl_ned, successOutcome,
    preCalls, preOut, offTailCalls, offOutOk]

lemma mainRun_armFailEnv : mainRun armFailEnv = some armFailOut := by
  simp [mainRun, armFailEnv, armFailOut, pollsUntil, armFailOutcome, preCalls, preOut]

/-- In a trace of the form `A ++ priming-setpoint :: start :: B` with no
other `start` occurrence, every occurrence of `start` has a setpoint send
strictly before it. -/
lemma send_before_start_of_shape (A B : List GatewayCall)
    (hA : GatewayCall.offboardStart ∉ A) (hB : GatewayCall.offboardStart ∉ B) :
    ∀ j : ℕ,
      (A ++ (.setVelocityNed 0 0 0 0 :: .offboardStart :: B))[j]? = some .offboardStart →
      ∃ i : ℕ, i < j ∧
        ∃ c, (A ++ (.setVelocityNed 0 0 0 0 :: .offboardStart :: B))[i]? = some c
          ∧ isSetpointSend c = true := by
  intro j hj
  by_cases hjA : j < A.length
  · rw [List.getElem?_append_left hjA] at hj
    exact absurd (List.getElem?_mem hj) hA
  · push_neg at hjA
    rw [List.getElem?_append_right hjA] at hj
    rcases htj : j - A.length with _ | t
    · rw [htj] at hj
      simp at hj
    · rcases t with _ | t2
      · refine ⟨A.length, by omega, .setVelocityNed 0 0 0 0, ?_, rfl⟩
        rw [List.getElem?_append_right (le_refl A.length)]
        simp
      · rw [htj] at hj
        simp at hj
        exact absurd (List.getElem?_mem hj) hB

lemma pollsUntil_replicate (stop : Bool) (n : ℕ) (rest : List Bool) :
    pollsUntil stop (List.replicate n (!stop) ++ (stop :: rest)) = some (n + 1) := by
  induction n with
  | zero => simp [pollsUntil]
  | succ n ih =>
    rw [List.replicate_succ, List.cons_append]
    simp [pollsUntil, Bool.not_ne_self, ih]

lemma pollsUntil_isSome (stop : Bool) (l : List Bool) (h : stop ∈ l) :
    (pollsUntil stop l).isSome = true := by
  induction l with
  | nil => simp at h
  | cons b rest ih =>
    by_cases hb : b = stop
    · simp [pollsUntil, hb]
    · rcases List.mem_cons.1 h with rfl | hrest
      · exact absurd rfl hb
      · simp [pollsUntil, hb, Option.isSome_map, ih hrest]

/-! ## The claims -/

/-- C1: every terminating run satisfies the fail-fast property for arm,
offboard start and land. -/
theorem c1_fail_fast (env : Env) (o : RunOutcome) (h : mainRun env = some o) :
    FailFast env o := by
  rcases mainRun_shapes env o h with
      ⟨-, rfl⟩ | ⟨url, -, -, rfl⟩ | ⟨url, k, -, -, -, har, rfl⟩
    | ⟨url, k, -, -, -, har, hsr, rfl⟩ | ⟨url, k, -, -, -, har, hsr, hlr, rfl⟩
    | ⟨url, k, m, -, -, -, har, hsr, hlr, -, rfl⟩
  · exact ⟨fun _ hm => absurd hm (by simp [usageOutcome]),
           fun _ hm => absurd hm (by simp [usageOutcome]),
           fun _ hm => absurd hm (by simp [usageOutcome])⟩
  · exact ⟨fun _ hm => absurd hm (by simp [connFailOutcome]),
           fun _ hm => absurd hm (by simp [connFailOutcome]),
           fun _ hm => absurd hm (by simp [connFailOutcome])⟩
  · refine ⟨fun _ _ => ⟨rfl, by simp [armFailOutcome], phaseLE_preCalls url k 2 le_rfl⟩,
            fun _ hm => absurd hm ?_, fun _ hm => absurd hm ?_⟩
    · exact start_not_mem_preCalls url k
    · simp [armFailOutcome, preCalls, List.mem_replicate]
  · refine ⟨fun hc _ => absurd har hc, fun _ _ => ⟨rfl, by simp [startFailOutcome], ?_⟩,
            fun _ hm => absurd hm ?_⟩
    · intro c hc
      simp [startFailOutcome] at hc
      rcases hc with hc | rfl | rfl
      · exact le_trans (phaseLE_preCalls url k 2 le_rfl c hc) (by omega)
      · simp [phase]
      · simp [phase]
    · simp [startFailOutcome, preCalls, List.mem_replicate]
  · refine ⟨fun hc _ => absurd har hc, fun hc _ => absurd hsr hc,
            fun _ _ => ⟨rfl, by simp [landFailOutcome], ?_⟩⟩
    intro c hc
    simp [landFailOutcome] at hc
    rcases hc with hc | rfl | rfl | hc | rfl
    · exact le_trans (phaseLE_preCalls url k 2 le_rfl c hc) (by omega)
    · simp [phase]
    · simp [phase]
    · rw [phase_offTail hc]; omega
    · simp [phase]
  · exact ⟨fun hc _ => absurd har hc, fun hc _ => absurd hsr hc, fun hc _ => absurd hlr hc⟩

/-- C1 witness: a run whose `arm()` returns a failure. -/
theorem c1_witness :
    mainRun armFailEnv = some armFailOut ∧ FailFast armFailEnv armFailOut :=
  ⟨mainRun_armFailEnv, c1_fail_fast armFailEnv armFailOut mainRun_armFailEnv⟩

/-- C2: in every terminating run, a setpoint is delivered to the
External-Control Gateway strictly before any `start()` invocation; there is
no `start()` in the call sequence without a prior setpoint send. -/
theorem c2_priming_before_start (env : Env) (o : RunOutcome)
    (h : mainRun env = some o) : StartPrimed o := by
  rcases mainRun_shapes env o h with
      ⟨-, rfl⟩ | ⟨url, -, -, rfl⟩ | ⟨url, k, -, -, -, har, rfl⟩
    | ⟨url, k, -, -, -, har, hsr, rfl⟩ | ⟨url, k, -, -, -, har, hsr, hlr, rfl⟩
    | ⟨url, k, m, -, -, -, har, hsr, hlr, -, rfl⟩
  · intro j hj
    exact absurd (List.getElem?_mem hj) (by simp [usageOutcome])
  · intro j hj
    exact absurd (List.getElem?_mem hj) (by simp [connFailOutcome])
  · intro j hj
    exact absurd (List.getElem?_mem hj) (start_not_mem_preCalls url k)
  · exact send_before_start_of_shape (preCalls url k) []
      (start_not_mem_preCalls url k) (by simp)
  · exact send_before_start_of_shape (preCalls url k) (offTailCalls ++ [.land])
      (start_not_mem_preCalls url k) (by simp [start_not_mem_offTail])
  · exact send_before_start_of_shape (preCalls url k)
      (offTailCalls ++ (.land :: (List.replicate m .inAirPoll ++ [.disarm])))
      (start_not_mem_preCalls url k)
      (by simp [start_not_mem_offTail, List.mem_replicate])

/-- C2 witness: the all-success run. -/
theorem c2_witness : mainRun okEnv = some okOut ∧ StartPrimed okOut :=
  ⟨mainRun_okEnv, c2_priming_before_start okEnv okOut mainRun_okEnv⟩

/-- C3: the Descent Ramp emits exactly `steps` setpoints; the i-th has
down-component `-height + height/steps*i + 0.15`; for the program's
parameters (`steps = 5`, `height = 0.75`, offset `0.15`) the
down-components are exactly `[-0.6, -0.45, -0.3, -0.15, 0.0]`. -/
theorem c3_descent_ramp_values :
    rampCalls.length = steps
    ∧ rampCalls = (List.range steps).map
        (fun i => .setPositionNed 0 0 (-height + height / (steps : ℚ) * i + 15/100) 0)
    ∧ descentDowns = [-6/10, -45/100, -3/10, -15/100, 0]
    ∧ rampCalls = descentDowns.map (fun q => .setPositionNed 0 0 q 0) := by
  refine ⟨by simp [rampCalls, steps], rfl, descentDowns_eq, ?_⟩
  simp [rampCalls, descentDowns, List.map_map]

/-- C4 counterexample: the claim says every ramp setpoint's down-component
is strictly below zero, but the last ramp iteration (i = 4) commands
down-component exactly 0 — the ramp does not exclude the zero state. -/
theorem c4_counterexample :
    descent_down height steps 4 = 0
    ∧ ¬ descent_down height steps 4 < 0
    ∧ descentDowns.getLast? = some 0 := by
  refine ⟨by norm_num [descent_down, height, steps], by norm_num [descent_down, height, steps], ?_⟩
  rw [descentDowns_eq]
  rfl

/-- C4 amended: every ramp setpoint except the last has a down-component
strictly below zero; the last ramp setpoint's down-component equals exactly
zero — the same value as the separately-commanded final setpoint that
follows the ramp. -/
theorem c4_amended :
    descentDowns = [-6/10, -45/100, -3/10, -15/100, 0]
    ∧ (-6/10 : ℚ) < 0 ∧ (-45/100 : ℚ) < 0 ∧ (-3/10 : ℚ) < 0 ∧ (-15/100 : ℚ) < 0
    ∧ descentDowns.getLast? = some 0
    ∧ offTailCalls.getLast? = some (.setPositionNed 0 0 0 0) := by
  refine ⟨descentDowns_eq, by norm_num, by norm_num, by norm_num, by norm_num, ?_, ?_⟩
  · rw [descentDowns_eq]; rfl
  · simp [offTailCalls, List.getLast?_cons, List.getLast?_append]

/-- C5: the descent down-components are strictly increasing (each
successive value strictly greater than the previous, climbing toward
zero). -/
theorem c5_descent_monotone :
    List.Chain' (fun a b : ℚ => a < b) descentDowns := by
  rw [descentDowns_eq]
  simp [List.chain'_cons]
  norm_num

/-- C6 counterexample: the claim says the disarm failure is "logged only",
but the code discards the result of `disarm()` entirely: the run with a
failing disarm is observably identical (exit code, calls, output) to the
all-success run `okEnv`, so no message about the failure is ever emitted —
and the exit code is still 0. -/
theorem c6_counterexample :
    mainRun disarmFailEnv = mainRun okEnv
    ∧ (mainRun disarmFailEnv).map RunOutcome.exitCode = some 0 := by
  constructor
  · rfl
  · have h : mainRun disarmFailEnv = mainRun okEnv := rfl
    rw [h, mainRun_okEnv]
    rfl

/-- C6 amended: a non-Success `disarm()` result never causes termination or
a non-zero exit — if every prior phase succeeded the run ends with exit
code 0 whatever disarm returns; the disarm result is ignored entirely (it
is not even logged: the observable outcome is independent of it). -/
theorem c6_disarm_ignored (env : Env) : DisarmIgnored env := by
  constructor
  · intro r₁ r₂
    obtain ⟨pn, args, cr, hb, g, ar, sr, lr, ia, dr⟩ := env
    rfl
  · intro o h hmem
    rcases mainRun_shapes env o h with
        ⟨-, rfl⟩ | ⟨url, -, -, rfl⟩ | ⟨url, k, -, -, -, har, rfl⟩
      | ⟨url, k, -, -, -, har, hsr, rfl⟩ | ⟨url, k, -, -, -, har, hsr, hlr, rfl⟩
      | ⟨url, k, m, -, -, -, har, hsr, hlr, -, rfl⟩
    · exact absurd hmem (by simp [usageOutcome])
    · exact absurd hmem (by simp [connFailOutcome])
    · exact absurd hmem (disarm_not_mem_preCalls url k)
    · exact absurd hmem (by
        simp [startFailOutcome, preCalls, List.mem_replicate])
    · exact absurd hmem (by
        simp [landFailOutcome, preCalls, List.mem_replicate, disarm_not_mem_offTail])
    · rfl

/-- C6 witness: the failing-disarm run reaches `disarm()` and exits 0. -/
theorem c6_witness :
    DisarmIgnored disarmFailEnv
    ∧ mainRun disarmFailEnv = some okOut
    ∧ GatewayCall.disarm ∈ okOut.calls
    ∧ okOut.exitCode = 0 := by
  have hrun : mainRun disarmFailEnv = some okOut := mainRun_okEnv
  have hd := c6_disarm_ignored disarmFailEnv
  exact ⟨hd, hrun, by simp [okOut, successOutcome], hd.2 okOut hrun (by simp [okOut, successOutcome])⟩

/-- C7: with `in_air()` true exactly `N` times then false, the run performs
exactly `N + 1` in-air polls, immediately followed by `disarm()`; and the
polling loop terminates whenever the oracle eventually answers false. -/
theorem c7_wait_grounded (N : ℕ) :
    (∀ l : List Bool, false ∈ l → (pollsUntil false l).isSome = true)
    ∧ mainRun (waitGroundedEnv N) = some (successOutcome "udp://:14540" 1 true (N + 1))
    ∧ (successOutcome "udp://:14540" 1 true (N + 1)).calls.count .inAirPoll = N + 1 := by
  refine ⟨pollsUntil_isSome false, ?_, ?_⟩
  · have hia : pollsUntil false (List.replicate N true ++ [false]) = some (N + 1) :=
      pollsUntil_replicate false N []
    simp [mainRun, waitGroundedEnv, pollsUntil, hia, offb_ctrl_ned, successOutcome,
      preCalls, preOut, offTailCalls, offOutOk]
  · have h1 : (preCalls "udp://:14540" 1).count GatewayCall.inAirPoll = 0 :=
      List.count_eq_zero.2 (by simp [preCalls, List.mem_replicate])
    have h2 : offTailCalls.count GatewayCall.inAirPoll = 0 :=
      List.count_eq_zero.2 (by simp [offTailCalls, rampCalls])
    simp [successOutcome, List.count_append, List.count_cons, h1, h2]

/-- C7 witness: the `N = 2` scenario. -/
theorem c7_witness :
    (false ∈ ([true, false] : List Bool)
      ∧ (pollsUntil false [true, false]).isSome = true)
    ∧ mainRun (waitGroundedEnv 2) = some (successOutcome "udp://:14540" 1 true 3)
    ∧ (successOutcome "udp://:14540" 1 true 3).calls.count .inAirPoll = 3 := by
  have h := c7_wait_grounded 2
  exact ⟨⟨by simp, h.1 [true, false] (by simp)⟩, h.2.1, h.2.2⟩

/-- C8: with any argument count other than exactly one connection argument,
the program prints the usage text, exits with status 1, and issues no
connection or gateway call. -/
theorem c8_usage_error (env : Env) (h : env.args.length ≠ 1) :
    mainRun env = some (usageOutcome env.progName)
    ∧ (usageOutcome env.progName).exitCode = 1
    ∧ (usageOutcome env.progName).calls = []
    ∧ (usageOutcome env.progName).output = usageOutput env.progName := by
  refine ⟨?_, rfl, rfl, rfl⟩
  obtain ⟨pn, args, cr, hb, g, ar, sr, lr, ia, dr⟩ := env
  rcases args with _ | ⟨url, _ | ⟨a2, rest2⟩⟩
  · rfl
  · simp at h
  · rfl

/-- C8 witness: the zero-argument invocation. -/
theorem c8_witness :
    c8Env.args.length ≠ 1
    ∧ (mainRun c8Env = some (usageOutcome c8Env.progName)
       ∧ (usageOutcome c8Env.progName).exitCode = 1
       ∧ (usageOutcome c8Env.progName).calls = []
       ∧ (usageOutcome c8Env.progName).output = usageOutput c8Env.progName) :=
  ⟨by simp [c8Env], c8_usage_error c8Env (by simp [c8Env])⟩

/-- C9 counterexample: in the all-success run the first `arm()` call occurs
strictly before the first setpoint send (the claimed order — priming
setpoint, then arm, then start — is the reverse of what the code does:
`main` arms first, and `offb_ctrl_ned` then sends the priming setpoint and
starts offboard). -/
theorem c9_counterexample :
    mainRun okEnv = some okOut
    ∧ okOut.calls.findIdx (fun c => decide (c = .arm))
        < okOut.calls.findIdx isSetpointSend := by
  refine ⟨mainRun_okEnv, ?_⟩
  decide

/-- C9 amended: in every run in which `start()` is invoked, the gateway
calls `arm()`, the priming setpoint send, and `start()` occur consecutively
and in that order: arm first, then the priming setpoint, then start. -/
theorem c9_amended_order (env : Env) (o : RunOutcome)
    (h : mainRun env = some o) (hs : GatewayCall.offboardStart ∈ o.calls) :
    ∃ pre post, o.calls
      = pre ++ (.arm :: .setVelocityNed 0 0 0 0 :: .offboardStart :: post) := by
  rcases mainRun_shapes env o h with
      ⟨-, rfl⟩ | ⟨url, -, -, rfl⟩ | ⟨url, k, -, -, -, har, rfl⟩
    | ⟨url, k, -, -, -, har, hsr, rfl⟩ | ⟨url, k, -, -, -, har, hsr, hlr, rfl⟩
    | ⟨url, k, m, -, -, -, har, hsr, hlr, -, rfl⟩
  · exact absurd hs (by simp [usageOutcome])
  · exact absurd hs (by simp [connFailOutcome])
  · exact absurd hs (start_not_mem_preCalls url k)
  · exact ⟨.addConnection url :: (List.replicate k .isConnected ++ [.healthQuery]), [],
      by simp [startFailOutcome, preCalls]⟩
  · exact ⟨.addConnection url :: (List.replicate k .isConnected ++ [.healthQuery]),
      offTailCalls ++ [.land],
      by simp [landFailOutcome, preCalls]⟩
  · exact ⟨.addConnection url :: (List.replicate k .isConnected ++ [.healthQuery]),
      offTailCalls ++ (.land :: (List.replicate m .inAirPoll ++ [.disarm])),
      by simp [successOutcome, preCalls]⟩

/-- C9 witness: the all-success run contains the consecutive
arm / priming-setpoint / start segment. -/
theorem c9_witness :
    mainRun okEnv = some okOut
    ∧ GatewayCall.offboardStart ∈ okOut.calls
    ∧ ∃ pre post, okOut.calls
        = pre ++ (.arm :: .setVelocityNed 0 0 0 0 :: .offboardStart :: post) := by
  have hs : GatewayCall.offboardStart ∈ okOut.calls := by
    simp [okOut, successOutcome]
  exact ⟨mainRun_okEnv, hs, c9_amended_order okEnv okOut mainRun_okEnv hs⟩

/-- C10: `offb_ctrl_ned` returns `true` on every execution that returns at
all (any failure path exits the process inside `offboard_error_exit`
instead of returning), so the caller's `ret == false` branch that would
return `EXIT_FAILURE` can never be taken. -/
theorem c10_offb_ctrl_ned_never_false (r : GResult)
    (ret : Bool) (calls : List GatewayCall) (output : List OutEvent)
    (h : offb_ctrl_ned r = .ok (ret, calls, output)) : ret = true := by
  by_cases hr : r = GResult.success
  · subst hr
    simp [offb_ctrl_ned] at h
    exact h.1
  · simp [offb_ctrl_ned, hr] at h

/-- C10 witness: the successful offboard run. -/
theorem c10_witness :
    offb_ctrl_ned .success
      = .ok (true, (.setVelocityNed 0 0 0 0 :: .offboardStart :: offTailCalls),
             (.out "[NED] Offboard started" :: .out "[NED] Going to 0, 0, -0.0"
              :: .out "[NED] Going to 0, 0, -0.75" :: .out "[NED] Going to 0.2, 0, -0.75"
              :: .out "[NED] Going to 0, 0, -0.75"
              :: (rampOut ++ [.out "[NED] Going to 0, 0, 0"])))
    ∧ true = true := by
  have h : offb_ctrl_ned GResult.success
      = .ok (true, (.setVelocityNed 0 0 0 0 :: .offboardStart :: offTailCalls),
             (.out "[NED] Offboard started" :: .out "[NED] Going to 0, 0, -0.0"
              :: .out "[NED] Going to 0, 0, -0.75" :: .out "[NED] Going to 0.2, 0, -0.75"
              :: .out "[NED] Going to 0, 0, -0.75"
              :: (rampOut ++ [.out "[NED] Going to 0, 0, 0"]))) := by
    simp [offb_ctrl_ned, offTailCalls, offboard_log]
  exact ⟨h, c10_offb_ctrl_ned_never_false _ _ _ _ h⟩

end OffboardPosition
